import Mathlib

/-!
# Verification of the elevator-manual chat assistant (`src/pages/app.py`)

Shallow embedding of the pure core of the application:

* Python strings are modeled as `List Char`; `str.lower` as a character-wise
  ASCII lowercasing (`Char.toLower`), `\w` as alphanumeric-or-underscore.
* The chunker `dividir_em_blocos_paginas`, the retriever
  `buscar_blocos_relevantes`, the quota gate `verificar_limite_uso`, the
  conversation loader `carregar_conversas` and the per-question branch of
  `renderizar_chat` are translated function by function.
* Remote calls (Supabase RPC, Gemini) are modeled by passing their outcome
  in as an explicit parameter (`Except Unit _` for calls that can raise).
* Python `while` loops are embedded with an explicit fuel argument that is
  large enough for every terminating run of the source loop.
-/

/-- One extracted PDF page, as produced by `extrair_texto_pdf`:
`{"pagina": i+1, "texto": texto, "arquivo": filename}`. -/
structure Pagina where
  pagina : Nat
  texto : List Char
  arquivo : List Char
deriving DecidableEq

/-- One chunk, as produced by `dividir_em_blocos_paginas`:
`{"pagina": ..., "arquivo": ..., "texto": texto[i:fim]}`. -/
structure Bloco where
  pagina : Nat
  arquivo : List Char
  texto : List Char
deriving DecidableEq

/-- The window positions `(i, fim)` visited by the `while i < len(texto)` loop
of `dividir_em_blocos_paginas` for a single page text of length `L`:
`fim = min(i + tamanho, len(texto))`; stop after a window with `fim >= len`;
otherwise continue from `i = fim - overlap`.  `fuel` bounds the number of
iterations; `L` iterations always suffice when `overlap < tamanho`. -/
def spansAux (L tamanho overlap : Nat) : Nat → Nat → List (Nat × Nat)
  | 0, _ => []
  | fuel + 1, i =>
    if i < L then
      if min (i + tamanho) L < L then
        (i, min (i + tamanho) L) :: spansAux L tamanho overlap fuel (min (i + tamanho) L - overlap)
      else
        [(i, min (i + tamanho) L)]
    else []

/-- All windows produced for one page text of length `L` (fuel `L + 1` is
more than enough when `overlap < tamanho`). -/
def chunkSpans (L tamanho overlap : Nat) : List (Nat × Nat) :=
  spansAux L tamanho overlap (L + 1) 0

/-- The chunks produced for one page `p` by the inner `while` loop of
`dividir_em_blocos_paginas`, starting at offset `i`:
each iteration appends `{"pagina": p["pagina"], "arquivo": p.get("arquivo", ""),
"texto": texto[i:fim]}`. -/
def blocosAux (p : Pagina) (tamanho overlap : Nat) : Nat → Nat → List Bloco
  | 0, _ => []
  | fuel + 1, i =>
    if i < p.texto.length then
      if min (i + tamanho) p.texto.length < p.texto.length then
        ⟨p.pagina, p.arquivo, (p.texto.drop i).take (min (i + tamanho) p.texto.length - i)⟩ ::
          blocosAux p tamanho overlap fuel (min (i + tamanho) p.texto.length - overlap)
      else
        [⟨p.pagina, p.arquivo, (p.texto.drop i).take (min (i + tamanho) p.texto.length - i)⟩]
    else []

/-- Python `dividir_em_blocos_paginas(paginas, tamanho, overlap)`: for each page, run
the sliding-window loop and concatenate the chunks in page order. -/
def dividir_em_blocos_paginas (paginas : List Pagina) (tamanho overlap : Nat) : List Bloco :=
  paginas.flatMap (fun p => blocosAux p tamanho overlap (p.texto.length + 1) 0)

example : chunkSpans 6 5 2 = [(0, 5), (3, 6)] := by decide
example : chunkSpans 9 5 2 = [(0, 5), (3, 8), (6, 9)] := by decide
example : chunkSpans 5 5 2 = [(0, 5)] := by decide
example : chunkSpans 3 5 2 = [(0, 3)] := by decide
example : chunkSpans 0 5 2 = [] := by decide
example :
    dividir_em_blocos_paginas [⟨1, ['a', 'b', 'c', 'd'], ['f']⟩] 3 1 =
      [⟨1, ['f'], ['a', 'b', 'c']⟩, ⟨1, ['f'], ['c', 'd']⟩] := by decide

/-! ## Retriever (`buscar_blocos_relevantes`) -/

/-- ASCII model of `str.lower()`, applied character by character. -/
def lowerChar (c : Char) : Char := c.toLower

/-- Model of the regex class `\w`: alphanumeric or underscore. -/
def isWordChar (c : Char) : Bool := c.isAlphanum || c = '_'

/-- Scanner for `re.findall(r"\w+", s)`: emit the maximal run of word
characters at the head, then continue after it.  `fuel` bounds the number of
steps; every step consumes at least one character, so `s.length` suffices. -/
def findallWordsAux : Nat → List Char → List (List Char)
  | 0, _ => []
  | _, [] => []
  | fuel + 1, c :: rest =>
    if isWordChar c then
      (c :: rest.takeWhile isWordChar) :: findallWordsAux fuel (rest.dropWhile isWordChar)
    else
      findallWordsAux fuel rest

/-- Model of `re.findall(r"\w+", s)`: the maximal runs of word characters. -/
def findallWords (s : List Char) : List (List Char) :=
  findallWordsAux s.length s

/-- The fixed stopword set of `buscar_blocos_relevantes`. -/
def stopwords : List (List Char) :=
  [['o'], ['a'], ['d', 'e'], ['d', 'a'], ['d', 'o'], ['e'], ['é'],
   ['p', 'a', 'r', 'a'], ['c', 'o', 'm'], ['u', 'm'], ['u', 'm', 'a'],
   ['o', 's'], ['a', 's']]

/-- Python `set(p.lower() for p in re.findall(r"\w+", pergunta.lower()) if len(p) > 2
and p not in stopwords)`.  The Python `set` is modeled as a duplicate-free
list (`dedup`); the score below is invariant under its iteration order. -/
def palavrasDaPergunta (pergunta : List Char) : List (List Char) :=
  (((findallWords (pergunta.map lowerChar)).filter
      (fun p => 2 < p.length && !(stopwords.contains p))).map
    (fun p => p.map lowerChar)).dedup

/-- Does `pat` occur at the very start of `s`? (used to model `str.count`). -/
def matchesAt : List Char → List Char → Bool
  | [], _ => true
  | _ :: _, [] => false
  | p :: ps, c :: cs => p == c && matchesAt ps cs

/-- Scanner for Python `s.count(pat)` with nonempty `pat`: count
non-overlapping occurrences left to right, skipping past each match.
`fuel` bounds the number of steps; every step consumes at least one
character, so `s.length` suffices. -/
def countOccsAux (pat : List Char) : Nat → List Char → Nat
  | 0, _ => 0
  | _, [] => 0
  | fuel + 1, c :: rest =>
    if !pat.isEmpty && matchesAt pat (c :: rest) then
      1 + countOccsAux pat fuel (rest.drop (pat.length - 1))
    else
      countOccsAux pat fuel rest

/-- Model of Python `s.count(pat)` for nonempty `pat`. -/
def countOccs (pat s : List Char) : Nat :=
  countOccsAux pat s.length s

/-- Python `score = sum(texto_lower.count(p) for p in palavras)` for one chunk. -/
def scoreBloco (palavras : List (List Char)) (b : Bloco) : Nat :=
  (palavras.map (fun p => countOccs p (b.texto.map lowerChar))).sum

/-- The `scores` list built by the `for bloco in blocos` loop: the pairs
`(score, bloco)` for chunks whose score is positive, in input order. -/
def scoresDosBlocos (palavras : List (List Char)) (blocos : List Bloco) :
    List (Nat × Bloco) :=
  blocos.filterMap (fun b =>
    if 0 < scoreBloco palavras b then some (scoreBloco palavras b, b) else none)

/-- Stable descending insertion: place `x` before the first element whose
score is not larger.  Models one element's final position under Python's
stable `list.sort(key=lambda x: x[0], reverse=True)`. -/
def insertDesc (x : Nat × Bloco) : List (Nat × Bloco) → List (Nat × Bloco)
  | [] => [x]
  | y :: ys => if y.1 ≤ x.1 then x :: y :: ys else y :: insertDesc x ys

/-- Model of `scores.sort(key=lambda x: x[0], reverse=True)`: a stable sort
by score descending (equal scores keep their input order). -/
def sortDesc : List (Nat × Bloco) → List (Nat × Bloco)
  | [] => []
  | x :: xs => insertDesc x (sortDesc xs)

/-- Python `buscar_blocos_relevantes(pergunta, blocos, top_k)`. -/
def buscar_blocos_relevantes (pergunta : List Char) (blocos : List Bloco)
    (top_k : Nat) : List Bloco :=
  if blocos = [] then []
  else
    ((sortDesc (scoresDosBlocos (palavrasDaPergunta pergunta) blocos)).take
      top_k).map Prod.snd

example : palavrasDaPergunta ("o motor da cabine".toList) =
    [['m', 'o', 't', 'o', 'r'], ['c', 'a', 'b', 'i', 'n', 'e']] := by decide
example : countOccs ['a', 'b'] ['a', 'b', 'a', 'b', 'c'] = 2 := by decide
example : countOccs ['a', 'a'] ['a', 'a', 'a'] = 1 := by decide
example :
    buscar_blocos_relevantes ("motor".toList)
      [⟨1, [], "sem nada".toList⟩, ⟨2, [], "motor ok".toList⟩,
       ⟨3, [], "motor motor".toList⟩] 2 =
      [⟨3, [], "motor motor".toList⟩, ⟨2, [], "motor ok".toList⟩] := by decide

/-! ## Usage gate (`verificar_limite_uso`) -/

/-- A Python value carried in an RPC row, with its truthiness. -/
inductive PyVal where
  | vBool (b : Bool)
  | vInt (n : Int)
  | vStr (s : List Char)
  | vNone
deriving DecidableEq

/-- Python `bool(v)`. -/
def truthy : PyVal → Bool
  | .vBool b => b
  | .vInt n => !(n == 0)
  | .vStr s => !s.isEmpty
  | .vNone => false

/-- The shape of `response.data` returned by the `check_usage_limit_user`
RPC: a boolean, a list of rows (each row the ordered values of its dict),
or anything else. -/
inductive UsageRpcData where
  | asBool (b : Bool)
  | asList (rows : List (List PyVal))
  | other
deriving DecidableEq

/-- Python `verificar_limite_uso(supabase, user_id)`, with the outcome of the
remote `supabase.rpc("check_usage_limit_user", ...)` call passed in as
`resp`.  `Except.error` models the call raising.  A list result whose first
row is an empty dict makes `list(result[0].values())[0]` raise `IndexError`,
which the enclosing `except` turns into `True` as well. -/
def verificar_limite_uso (resp : Except Unit UsageRpcData) : Bool :=
  match resp with
  | .error _ => true
  | .ok result =>
    match result with
    | .asBool b => b
    | .asList rows =>
      match rows with
      | [] => true
      | row :: _ =>
        match row with
        | [] => true
        | v :: _ => truthy v
    | .other => true

example : verificar_limite_uso (.error ()) = true := by decide
example : verificar_limite_uso (.ok (.asBool false)) = false := by decide
example : verificar_limite_uso (.ok (.asList [[.vInt 0]])) = false := by decide
example : verificar_limite_uso (.ok (.asList [])) = true := by decide
example : verificar_limite_uso (.ok .other) = true := by decide

/-! ## Conversation store (`criar_titulo_conversa`, `carregar_conversas`) -/

/-- A chat message role. -/
inductive Role where
  | user
  | assistant
deriving DecidableEq

/-- A chat message `{"role": ..., "content": ...}`. -/
structure Msg where
  role : Role
  content : List Char
deriving DecidableEq

/-- A persisted `consultations` row as read back by `carregar_conversas`:
question, answer, and creation time in seconds. -/
structure Row where
  question : List Char
  answer : List Char
  created_at : Int
deriving DecidableEq

/-- A client-side conversation.  The uuid-based `id` field is omitted: it is
freshly random (`uuid.uuid4()`), never interpreted, and no claim mentions
it. -/
structure Conversa where
  titulo : List Char
  timestamp : Int
  mensagens : List Msg
deriving DecidableEq

/-- Python `criar_titulo_conversa(primeira_pergunta)`: first 50 characters, plus
`"..."` when the question is longer than 50 characters. -/
def criar_titulo_conversa (primeira_pergunta : List Char) : List Char :=
  let titulo := primeira_pergunta.take 50
  if 50 < primeira_pergunta.length then titulo ++ ['.', '.', '.'] else titulo

/-- Append one persisted row's question/answer pair to a conversation's
message list, as the two `conversa_atual["mensagens"].append(...)` calls do. -/
def adicionarRow (c : Conversa) (row : Row) : Conversa :=
  { c with mensagens := c.mensagens ++ [⟨.user, row.question⟩, ⟨.assistant, row.answer⟩] }

/-- The conversation opened for a row that starts a new group. -/
def novaConversaDeRow (row : Row) : Conversa :=
  ⟨criar_titulo_conversa row.question, row.created_at, []⟩

/-- The row loop of `carregar_conversas`.  In the source, `conversa_atual`
and `ultima_data` are both `None` before the first row and both set from
then on; they are modeled as a single optional pair `atual = (conversa,
ultima_data)`.  A row starts a new group when `ultima_data is None` or
`(created_at - ultima_data).total_seconds() > 1800`. -/
def carregarAux (conversas : List Conversa) :
    Option (Conversa × Int) → List Row → List Conversa
  | none, [] => conversas.reverse
  | some (c, _), [] => (conversas ++ [c]).reverse
  | none, row :: rest =>
    carregarAux conversas (some (adicionarRow (novaConversaDeRow row) row, row.created_at)) rest
  | some (c, ultima), row :: rest =>
    if 1800 < row.created_at - ultima then
      carregarAux (conversas ++ [c])
        (some (adicionarRow (novaConversaDeRow row) row, row.created_at)) rest
    else
      carregarAux conversas (some (adicionarRow c row, row.created_at)) rest

/-- Python `carregar_conversas(supabase, user_id)`, with the rows returned by the
remote query (ordered by `created_at` ascending) passed in as `rows`.
Groups rows by the 30-minute gap rule and returns the groups reversed. -/
def carregar_conversas (rows : List Row) : List Conversa :=
  carregarAux [] none rows

/-- Modelled from the spec, for comparison with `carregar_conversas`:
"partition into groups by a 30-minute gap rule (a new group starts whenever
the gap to the previous row exceeds 1800 seconds, or at the first row)".
`cur` is the group being built, `prev` the previous row. -/
def specGroupsAux (cur : List Row) (prev : Row) : List Row → List (List Row)
  | [] => [cur]
  | r :: rest =>
    if 1800 < r.created_at - prev.created_at then
      cur :: specGroupsAux [r] r rest
    else
      specGroupsAux (cur ++ [r]) r rest

/-- Modelled from the spec: the groups of rows, a new group starting at the
first row and at every gap of more than 1800 seconds. -/
def specGroups : List Row → List (List Row)
  | [] => []
  | r :: rest => specGroupsAux [r] r rest

/-- The two messages contributed by one persisted row. -/
def rowMensagens (row : Row) : List Msg :=
  [⟨.user, row.question⟩, ⟨.assistant, row.answer⟩]

/-- Modelled from the spec: "Each group becomes one Conversation with title
= first 50 characters of its first question (+ "..." if truncated) and
timestamp = its first row's time". -/
def conversaOfGroup : List Row → Conversa
  | [] => ⟨[], 0, []⟩
  | r :: rest =>
    ⟨criar_titulo_conversa r.question, r.created_at,
     (r :: rest).flatMap rowMensagens⟩

example :
    carregar_conversas [⟨['q'], ['a'], 0⟩, ⟨['r'], ['b'], 1000⟩, ⟨['s'], ['c'], 3000⟩] =
      [⟨['s'], 3000, [⟨.user, ['s']⟩, ⟨.assistant, ['c']⟩]⟩,
       ⟨['q'], 0, [⟨.user, ['q']⟩, ⟨.assistant, ['a']⟩,
                   ⟨.user, ['r']⟩, ⟨.assistant, ['b']⟩]⟩] := by decide

/-! ## Answer generator (`gerar_resposta`) -/

/-- Python `s.strip()`: remove leading and trailing whitespace. -/
def stripChars (s : List Char) : List Char :=
  ((s.dropWhile Char.isWhitespace).reverse.dropWhile Char.isWhitespace).reverse

/-- Code-point comparison of strings, as Python `sorted` uses on `str`. -/
def leChars : List Char → List Char → Bool
  | [], _ => true
  | _ :: _, [] => false
  | a :: resta, b :: restb =>
    if a.val < b.val then true
    else if b.val < a.val then false
    else leChars resta restb

/-- Stable ascending insertion for Python `sorted`. -/
def insertLe {α : Type} (le : α → α → Bool) (x : α) : List α → List α
  | [] => [x]
  | y :: ys => if le x y then x :: y :: ys else y :: insertLe le x ys

/-- Stable ascending insertion sort, modeling Python `sorted`. -/
def sortLe {α : Type} (le : α → α → Bool) : List α → List α
  | [] => []
  | x :: xs => insertLe le x (sortLe le xs)

/-- Python `", ".join(items)`. -/
def joinComma (items : List (List Char)) : List Char :=
  (items.intersperse (", ".toList)).flatten

/-- Python `gerar_resposta(model, pergunta, blocos)`.  The remote
`model.generate_content(prompt).text` is passed in as `llm`; `Except.error`
models the call raising, which the source logs and re-raises.  The prompt
string itself is not modeled, since the LLM's output is an oracle here.  On
success the source returns `(resposta_final, paginas_usadas)`; the caller
discards the second component, so only `resposta_final` is modeled. -/
def gerar_resposta (llm : Except Unit (List Char)) (blocos : List Bloco) :
    Except Unit (List Char) :=
  let paginas_usadas := (blocos.map (fun b => b.pagina)).dedup
  let arquivos_usados := ((blocos.map (fun b => b.arquivo)).filter
    (fun a => !a.isEmpty)).dedup
  match llm with
  | .error e => .error e
  | .ok texto =>
    let resposta := stripChars texto
    if !arquivos_usados.isEmpty || !paginas_usadas.isEmpty then
      let rodape0 := "\n\n---\n📚 **Fontes consultadas:**\n".toList
      let rodape1 := rodape0 ++
        (if !arquivos_usados.isEmpty then
          "📄 Arquivos: ".toList ++ joinComma (sortLe leChars arquivos_usados) ++ ['\n']
        else [])
      let rodape2 := rodape1 ++
        (if !paginas_usadas.isEmpty then
          "📖 Páginas: ".toList ++
            joinComma ((sortLe (fun a b => a ≤ b) paginas_usadas).map
              (fun n => (Nat.repr n).toList))
        else [])
      .ok (resposta ++ rodape2)
    else
      .ok resposta

/-! ## One question turn of `renderizar_chat` -/

/-- The current (active) conversation as mutated by a chat turn.  The
uuid `id` and wall-clock `timestamp` set by `criar_nova_conversa` are
omitted (random / wall clock, never branched on by a turn). -/
structure ConversaAtiva where
  titulo : List Char
  mensagens : List Msg
  nova : Bool
deriving DecidableEq

/-- Side-effect events of one question turn, in program order. -/
inductive Ev where
  | quota (allowed : Bool)
  | increment
  | retrieve (n : Nat)
  | llmCall (ok : Bool)
  | persistRow (question answer : List Char)
  | persistFail
deriving DecidableEq

/-- How a question turn of `renderizar_chat` terminates. -/
inductive TurnOutcome where
  | quotaDenied
  | noMatch
  | answered
  | genFailed
  | saveFailed
deriving DecidableEq

/-- Outcomes of the remote calls a turn may make, passed in as oracles. -/
structure TurnEnv where
  quotaResp : Except Unit UsageRpcData
  blocos : List Bloco
  llm : Except Unit (List Char)
  saveOk : Bool

/-- The session state a question turn reads and writes. -/
structure ChatState where
  historico : List Msg
  conversaAtiva : Option ConversaAtiva
deriving DecidableEq

/-- What a question turn leaves behind. -/
structure TurnResult where
  historico : List Msg
  conversa : ConversaAtiva
  events : List Ev
  outcome : TurnOutcome
deriving DecidableEq

/-- The fixed notice shown when retrieval returns no chunks. -/
def aviso_sem_informacao : List Char :=
  "⚠️ Não encontrei informações relevantes nos manuais carregados. Tente reformular sua pergunta ou envie manuais mais específicos.".toList

/-- The visible history at the start of a turn: `criar_nova_conversa`
(taken when no conversation is active) resets it to `[]`. -/
def histAntes (st : ChatState) : List Msg :=
  match st.conversaAtiva with
  | some _ => st.historico
  | none => []

/-- The conversation a turn appends to: the active one, or the fresh
untitled one `criar_nova_conversa` opens. -/
def convAntes (st : ChatState) : ConversaAtiva :=
  match st.conversaAtiva with
  | some c => c
  | none => ⟨"Nova conversa".toList, [], true⟩

/-- The `if pergunta:` branch of `renderizar_chat`, for one submitted
question.  `criar_nova_conversa` (taken when no conversation is active)
resets the visible history to `[]` and opens an untitled conversation.  The
user message is appended to the history and to the active conversation
before the quota check.  `incrementar_uso` swallows its own RPC errors, so
only the fact that it is called is recorded, as an `Ev.increment` event. -/
def processarPergunta (env : TurnEnv) (st : ChatState) (pergunta : List Char) :
    TurnResult :=
  let hist0 := histAntes st
  let conv0 := convAntes st
  let conv1 := if conv0.nova then
      { conv0 with titulo := criar_titulo_conversa pergunta, nova := false }
    else conv0
  let hist1 := hist0 ++ [⟨.user, pergunta⟩]
  let conv2 := { conv1 with mensagens := conv1.mensagens ++ [⟨.user, pergunta⟩] }
  if !verificar_limite_uso env.quotaResp then
    ⟨hist1, conv2, [.quota false], .quotaDenied⟩
  else
    let blocos := buscar_blocos_relevantes pergunta env.blocos 5
    let evs := [.quota true, .increment, .retrieve blocos.length]
    if blocos.isEmpty then
      ⟨hist1 ++ [⟨.assistant, aviso_sem_informacao⟩],
       { conv2 with mensagens := conv2.mensagens ++ [⟨.assistant, aviso_sem_informacao⟩] },
       evs, .noMatch⟩
    else
      match gerar_resposta env.llm blocos with
      | .error _ => ⟨hist1, conv2, evs ++ [.llmCall false], .genFailed⟩
      | .ok resposta_final =>
        if env.saveOk then
          ⟨hist1 ++ [⟨.assistant, resposta_final⟩],
           { conv2 with mensagens := conv2.mensagens ++ [⟨.assistant, resposta_final⟩] },
           evs ++ [.llmCall true, .persistRow pergunta resposta_final], .answered⟩
        else
          ⟨hist1, conv2, evs ++ [.llmCall true, .persistFail], .saveFailed⟩

example :
    (processarPergunta ⟨.ok (.asBool false), [], .ok [], true⟩
      ⟨[], some ⟨['t'], [], false⟩⟩ ['q']).outcome = .quotaDenied := by decide
example :
    (processarPergunta ⟨.ok (.asBool true), [], .ok [], true⟩
      ⟨[], some ⟨['t'], [], false⟩⟩ ['q']).outcome = .noMatch := by decide

/-! ## Lemmas about the retriever -/

lemma mem_scoresDosBlocos {pal : List (List Char)} {blocos : List Bloco}
    {p : Nat × Bloco} (hp : p ∈ scoresDosBlocos pal blocos) :
    p.1 = scoreBloco pal p.2 ∧ 0 < p.1 ∧ p.2 ∈ blocos := by
  rcases List.mem_filterMap.1 hp with ⟨b, hb, hfb⟩
  by_cases h : 0 < scoreBloco pal b
  · rw [if_pos h] at hfb
    cases hfb
    exact ⟨rfl, h, hb⟩
  · rw [if_neg h] at hfb
    cases hfb

lemma mem_insertDesc {x z : Nat × Bloco} {l : List (Nat × Bloco)} :
    z ∈ insertDesc x l ↔ z = x ∨ z ∈ l := by
  induction l with
  | nil => simp [insertDesc]
  | cons y ys ih =>
    by_cases h : y.1 ≤ x.1
    · simp [insertDesc, if_pos h]
    · simp [insertDesc, if_neg h, ih]
      tauto

lemma pairwise_insertDesc {x : Nat × Bloco} {l : List (Nat × Bloco)}
    (hl : l.Pairwise (fun a b => b.1 ≤ a.1)) :
    (insertDesc x l).Pairwise (fun a b => b.1 ≤ a.1) := by
  induction l with
  | nil => simp [insertDesc]
  | cons y ys ih =>
    rcases List.pairwise_cons.1 hl with ⟨hy, hys⟩
    by_cases h : y.1 ≤ x.1
    · simp only [insertDesc, if_pos h]
      refine List.pairwise_cons.2 ⟨?_, hl⟩
      intro z hz
      rcases List.mem_cons.1 hz with rfl | hz'
      · exact h
      · exact le_trans (hy z hz') h
    · simp only [insertDesc, if_neg h]
      refine List.pairwise_cons.2 ⟨?_, ih hys⟩
      intro z hz
      rcases mem_insertDesc.1 hz with rfl | hz'
      · exact le_of_lt (lt_of_not_le h)
      · exact hy z hz'

lemma filter_insertDesc (s : Nat) (x : Nat × Bloco) (l : List (Nat × Bloco)) :
    (insertDesc x l).filter (fun p => p.1 == s) =
      if x.1 = s then x :: l.filter (fun p => p.1 == s)
      else l.filter (fun p => p.1 == s) := by
  induction l with
  | nil =>
    by_cases hx : x.1 = s <;>
      simp [insertDesc, List.filter_cons, beq_iff_eq, hx]
  | cons y ys ih =>
    by_cases h : y.1 ≤ x.1
    · simp only [insertDesc, if_pos h]
      by_cases hx : x.1 = s <;> by_cases hy : y.1 = s <;>
        simp [List.filter_cons, beq_iff_eq, hx, hy]
    · simp only [insertDesc, if_neg h]
      have hylt : x.1 < y.1 := lt_of_not_le h
      by_cases hx : x.1 = s
      · have hy : ¬ (y.1 = s) := by omega
        simp [List.filter_cons, beq_iff_eq, hx, hy, ih]
      · by_cases hy : y.1 = s <;>
          simp [List.filter_cons, beq_iff_eq, hx, hy, ih]

lemma mem_sortDesc {z : Nat × Bloco} {l : List (Nat × Bloco)} :
    z ∈ sortDesc l ↔ z ∈ l := by
  induction l with
  | nil => simp [sortDesc]
  | cons x xs ih => simp [sortDesc, mem_insertDesc, ih]

lemma pairwise_sortDesc (l : List (Nat × Bloco)) :
    (sortDesc l).Pairwise (fun a b => b.1 ≤ a.1) := by
  induction l with
  | nil => simp [sortDesc]
  | cons x xs ih => exact pairwise_insertDesc ih

/-- Stability of the sort: the elements with any fixed score keep exactly
their input order. -/
lemma filter_sortDesc (s : Nat) (l : List (Nat × Bloco)) :
    (sortDesc l).filter (fun p => p.1 == s) = l.filter (fun p => p.1 == s) := by
  induction l with
  | nil => simp [sortDesc]
  | cons x xs ih =>
    rw [sortDesc, filter_insertDesc]
    by_cases hx : x.1 = s <;>
      simp [List.filter_cons, beq_iff_eq, hx, ih]

lemma filter_and_sublist {α : Type} (p q : α → Bool) (l : List α) :
    (l.filter (fun a => p a && q a)).Sublist (l.filter q) := by
  induction l with
  | nil => simp
  | cons a as ih =>
    by_cases hq : q a = true
    · by_cases hp : p a = true
      · simpa [List.filter_cons, hp, hq] using ih.cons₂ a
      · simpa [List.filter_cons, hp, hq] using ih.cons a
    · simpa [List.filter_cons, hq] using ih

lemma scoresDosBlocos_filter_eq (pal : List (List Char)) (blocos : List Bloco)
    (s : Nat) :
    (scoresDosBlocos pal blocos).filter (fun p => p.1 == s) =
      (blocos.filter (fun b =>
        decide (0 < scoreBloco pal b) && (scoreBloco pal b == s))).map
        (fun b => (scoreBloco pal b, b)) := by
  induction blocos with
  | nil => simp [scoresDosBlocos]
  | cons b bs ih =>
    simp only [scoresDosBlocos, List.filterMap_cons] at ih ⊢
    by_cases h : 0 < scoreBloco pal b
    · by_cases hs : scoreBloco pal b = s
      · simp only [if_pos h]
        subst hs
        simp [List.filter_cons, beq_iff_eq, h, ih]
      · simp only [if_pos h]
        simp [List.filter_cons, beq_iff_eq, h, hs, ih]
    · simp only [if_neg h]
      simp [List.filter_cons, beq_iff_eq, h, ih]

lemma buscar_eq_of_ne_nil {pergunta : List Char} {blocos : List Bloco}
    {top_k : Nat} (hb : blocos ≠ []) :
    buscar_blocos_relevantes pergunta blocos top_k =
      ((sortDesc (scoresDosBlocos (palavrasDaPergunta pergunta) blocos)).take
        top_k).map Prod.snd := by
  rw [buscar_blocos_relevantes, if_neg hb]

/-- Claim C2: For every question string, every list of chunks and every `K`:
`buscar_blocos_relevantes` never returns a chunk whose keyword score is
zero, returns at most `K` chunks, returns them sorted by score descending,
and for each fixed score value the returned chunks appear in their input
order (tie-breaking is stable). -/
theorem claim_C2_retriever (pergunta : List Char) (blocos : List Bloco)
    (top_k : Nat) :
    (∀ b ∈ buscar_blocos_relevantes pergunta blocos top_k,
        0 < scoreBloco (palavrasDaPergunta pergunta) b) ∧
    (buscar_blocos_relevantes pergunta blocos top_k).length ≤ top_k ∧
    (buscar_blocos_relevantes pergunta blocos top_k).Pairwise
      (fun a b => scoreBloco (palavrasDaPergunta pergunta) b ≤
        scoreBloco (palavrasDaPergunta pergunta) a) ∧
    (∀ s : Nat,
      ((buscar_blocos_relevantes pergunta blocos top_k).filter
        (fun b => scoreBloco (palavrasDaPergunta pergunta) b == s)).Sublist
      (blocos.filter
        (fun b => scoreBloco (palavrasDaPergunta pergunta) b == s))) := by
  by_cases hb : blocos = []
  · subst hb
    simp [buscar_blocos_relevantes]
  · rw [buscar_eq_of_ne_nil hb]
    refine ⟨?_, ?_, ?_, ?_⟩
    · intro b hbmem
      rcases List.mem_map.1 hbmem with ⟨p, hp, rfl⟩
      have hps : p ∈ scoresDosBlocos (palavrasDaPergunta pergunta) blocos :=
        mem_sortDesc.1 (List.mem_of_mem_take hp)
      have h := mem_scoresDosBlocos hps
      rw [← h.1]
      exact h.2.1
    · rw [List.length_map]
      rw [List.length_take]
      exact min_le_left _ _
    · rw [List.pairwise_map]
      refine List.Pairwise.imp_of_mem ?_
        ((pairwise_sortDesc _).sublist (List.take_sublist _ _) : _)
      intro p q hp hq hle
      have h1 := (mem_scoresDosBlocos (mem_sortDesc.1 (List.mem_of_mem_take hp))).1
      have h2 := (mem_scoresDosBlocos (mem_sortDesc.1 (List.mem_of_mem_take hq))).1
      rw [← h1, ← h2]
      exact hle
    · intro s
      rw [List.filter_map]
      have hcongr :
          ((sortDesc (scoresDosBlocos (palavrasDaPergunta pergunta) blocos)).take
            top_k).filter
            ((fun b => scoreBloco (palavrasDaPergunta pergunta) b == s) ∘ Prod.snd) =
          ((sortDesc (scoresDosBlocos (palavrasDaPergunta pergunta) blocos)).take
            top_k).filter (fun p => p.1 == s) := by
        refine List.filter_congr ?_
        intro p hp
        have h := (mem_scoresDosBlocos (mem_sortDesc.1 (List.mem_of_mem_take hp))).1
        simp [Function.comp, ← h]
      rw [hcongr]
      have h2 :
          (((sortDesc (scoresDosBlocos (palavrasDaPergunta pergunta) blocos)).take
            top_k).filter (fun p => p.1 == s)).Sublist
          ((scoresDosBlocos (palavrasDaPergunta pergunta) blocos).filter
            (fun p => p.1 == s)) := by
        have := (List.take_sublist top_k
          (sortDesc (scoresDosBlocos (palavrasDaPergunta pergunta) blocos))).filter
          (fun p => p.1 == s)
        rwa [filter_sortDesc] at this
      have h3 := h2.map Prod.snd
      rw [scoresDosBlocos_filter_eq, List.map_map] at h3
      have h4 : ((blocos.filter (fun b =>
          decide (0 < scoreBloco (palavrasDaPergunta pergunta) b) &&
            (scoreBloco (palavrasDaPergunta pergunta) b == s))).map
          (Prod.snd ∘ fun b => (scoreBloco (palavrasDaPergunta pergunta) b, b))) =
          blocos.filter (fun b =>
            decide (0 < scoreBloco (palavrasDaPergunta pergunta) b) &&
              (scoreBloco (palavrasDaPergunta pergunta) b == s)) := by
        simp [Function.comp_def]
      rw [h4] at h3
      exact h3.trans (filter_and_sublist _ _ _)

/-! ## Claims about the usage gate -/

/-- Claim C3: If the remote quota-check call raises, `verificar_limite_uso`
returns `true` (fails open) instead of propagating the failure. -/
theorem claim_C3_fail_open (e : Unit) :
    verificar_limite_uso (Except.error e) = true := rfl

/-- Claim C9: The gate denies exactly when the RPC succeeds and its result is
explicitly falsy in one of the two recognized shapes: a boolean `False`, or
a non-empty list whose first row's first value is falsy.  In every other
case — including a successful call returning neither a boolean nor a
non-empty list — the gate returns `true`. -/
theorem claim_C9_denial_only_recognized (resp : Except Unit UsageRpcData) :
    verificar_limite_uso resp = false ↔
      (resp = .ok (.asBool false) ∨
        ∃ v vs rows, resp = .ok (.asList ((v :: vs) :: rows)) ∧ truthy v = false) := by
  match resp with
  | .error e => simp [verificar_limite_uso]
  | .ok (.asBool b) => cases b <;> simp [verificar_limite_uso]
  | .ok (.asList []) => simp [verificar_limite_uso]
  | .ok (.asList ([] :: rows)) => simp [verificar_limite_uso]
  | .ok (.asList ((v :: vs) :: rows)) => simp [verificar_limite_uso]
  | .ok .other => simp [verificar_limite_uso]

/-! ## Claims about conversation loading -/

lemma adicionarRow_nova (r : Row) :
    adicionarRow (novaConversaDeRow r) r = conversaOfGroup [r] := by
  simp [adicionarRow, novaConversaDeRow, conversaOfGroup, rowMensagens]

lemma adicionarRow_conversaOfGroup (g : List Row) (hg : g ≠ []) (r : Row) :
    adicionarRow (conversaOfGroup g) r = conversaOfGroup (g ++ [r]) := by
  match g with
  | g0 :: gs =>
    simp [adicionarRow, conversaOfGroup, rowMensagens]

lemma carregarAux_eq_spec (rows : List Row) :
    ∀ (acc : List Conversa) (g : List Row) (prev : Row), g ≠ [] →
      carregarAux acc (some (conversaOfGroup g, prev.created_at)) rows =
        (acc ++ (specGroupsAux g prev rows).map conversaOfGroup).reverse := by
  induction rows with
  | nil =>
    intro acc g prev hg
    simp [carregarAux, specGroupsAux]
  | cons r rest ih =>
    intro acc g prev hg
    by_cases hgap : 1800 < r.created_at - prev.created_at
    · rw [carregarAux, if_pos hgap, adicionarRow_nova]
      rw [show r.created_at = (r : Row).created_at from rfl]
      rw [ih (acc ++ [conversaOfGroup g]) [r] r (by simp)]
      rw [specGroupsAux, if_pos hgap]
      simp
    · rw [carregarAux, if_neg hgap, adicionarRow_conversaOfGroup g hg r]
      rw [ih acc (g ++ [r]) r (by simp)]
      rw [specGroupsAux, if_neg hgap]

lemma carregar_eq_spec (rows : List Row) :
    carregar_conversas rows = ((specGroups rows).map conversaOfGroup).reverse := by
  match rows with
  | [] => simp [carregar_conversas, carregarAux, specGroups]
  | r :: rest =>
    rw [carregar_conversas, carregarAux, adicionarRow_nova]
    rw [carregarAux_eq_spec rest [] [r] r (by simp)]
    rw [specGroups]
    simp

/-- Claim C6: `carregar_conversas` equals the spec's grouping: partition the
rows at gaps of more than 1800 seconds to the previous row, turn each group
into a conversation titled by the first 50 characters of its first question
(`"..."` appended iff longer), timestamped by its first row, and return the
groups reversed.  In particular a single row forms exactly one
conversation, and two adjacent rows land in different conversations iff
their gap exceeds 1800 seconds. -/
theorem claim_C6_carregar_conversas (rows : List Row) :
    (carregar_conversas rows = ((specGroups rows).map conversaOfGroup).reverse) ∧
    (∀ q : List Char, criar_titulo_conversa q =
      q.take 50 ++ (if 50 < q.length then ['.', '.', '.'] else [])) ∧
    (∀ r : Row, carregar_conversas [r] = [conversaOfGroup [r]]) ∧
    (∀ r1 r2 : Row, 1800 < r2.created_at - r1.created_at →
      (carregar_conversas [r1, r2]).length = 2) ∧
    (∀ r1 r2 : Row, r2.created_at - r1.created_at ≤ 1800 →
      (carregar_conversas [r1, r2]).length = 1) := by
  refine ⟨carregar_eq_spec rows, ?_, ?_, ?_, ?_⟩
  · intro q
    by_cases hq : 50 < q.length <;> simp [criar_titulo_conversa, hq]
  · intro r
    rw [carregar_eq_spec]
    simp [specGroups, specGroupsAux]
  · intro r1 r2 hgap
    rw [carregar_eq_spec]
    simp [specGroups, specGroupsAux, if_pos hgap]
  · intro r1 r2 hgap
    rw [carregar_eq_spec]
    simp [specGroups, specGroupsAux, if_neg (not_lt.2 hgap)]

/-! ## Claims about the chunker -/

lemma spansAux_mem {L W O : Nat} (hO : O < W) :
    ∀ fuel i s e, L ≤ i + fuel → (s, e) ∈ spansAux L W O fuel i →
      i ≤ s ∧ s < L ∧ e = min (s + W) L := by
  intro fuel
  induction fuel with
  | zero =>
    intro i s e hf hm
    simp [spansAux] at hm
  | succ n ih =>
    intro i s e hf hm
    rw [spansAux] at hm
    by_cases hi : i < L
    · rw [if_pos hi] at hm
      by_cases hfim : min (i + W) L < L
      · rw [if_pos hfim] at hm
        rcases List.mem_cons.1 hm with heq | hm'
        · have hs : s = i ∧ e = min (i + W) L := by
            simpa [Prod.ext_iff] using heq
          obtain ⟨rfl, rfl⟩ := hs
          exact ⟨le_refl _, hi, rfl⟩
        · have hmin : min (i + W) L = i + W := by omega
          have hnext := ih (min (i + W) L - O) s e (by omega) hm'
          exact ⟨by omega, hnext.2.1, hnext.2.2⟩
      · rw [if_neg hfim] at hm
        have hs : s = i ∧ e = min (i + W) L := by
          simpa [Prod.ext_iff] using hm
        obtain ⟨rfl, rfl⟩ := hs
        exact ⟨le_refl _, hi, rfl⟩
    · rw [if_neg hi] at hm
      simp at hm

lemma spansAux_coverage {L W O : Nat} (hO : O < W) :
    ∀ fuel i x, L ≤ i + fuel → i ≤ x → x < L →
      ∃ se ∈ spansAux L W O fuel i, se.1 ≤ x ∧ x < se.2 := by
  intro fuel
  induction fuel with
  | zero =>
    intro i x hf hix hxL
    exfalso
    omega
  | succ n ih =>
    intro i x hf hix hxL
    have hi : i < L := lt_of_le_of_lt hix hxL
    rw [spansAux, if_pos hi]
    by_cases hfim : min (i + W) L < L
    · rw [if_pos hfim]
      by_cases hx : x < min (i + W) L
      · exact ⟨(i, min (i + W) L), List.mem_cons_self _ _, hix, hx⟩
      · have hmin : min (i + W) L = i + W := by omega
        rcases ih (min (i + W) L - O) x (by omega) (by omega) hxL with
          ⟨se, hse, hle, hlt⟩
        exact ⟨se, List.mem_cons_of_mem _ hse, hle, hlt⟩
    · rw [if_neg hfim]
      exact ⟨(i, min (i + W) L), List.mem_cons_self _ _, hix, by omega⟩

lemma spansAux_length {L W O : Nat} (hO : O < W) :
    ∀ fuel i, L ≤ i + fuel → i < L →
      (spansAux L W O fuel i).length =
        if i + W < L then (L - i - O + (W - O) - 1) / (W - O) else 1 := by
  intro fuel
  induction fuel with
  | zero =>
    intro i hf hi
    exfalso
    omega
  | succ n ih =>
    intro i hf hi
    rw [spansAux, if_pos hi]
    by_cases h : i + W < L
    · have hfim : min (i + W) L < L := by omega
      rw [if_pos hfim, if_pos h]
      have hmin : min (i + W) L = i + W := by omega
      rw [hmin]
      rw [List.length_cons]
      rw [ih (i + W - O) (by omega) (by omega)]
      by_cases h2 : (i + W - O) + W < L
      · rw [if_pos h2]
        have ha : L - i - O + (W - O) - 1 =
            (L - (i + W - O) - O + (W - O) - 1) + (W - O) := by omega
        rw [ha, Nat.add_div_right _ (by omega : 0 < W - O)]
      · rw [if_neg h2]
        have hD : (0:Nat) < W - O := by omega
        have h2le : 2 ≤ (L - i - O + (W - O) - 1) / (W - O) :=
          (Nat.le_div_iff_mul_le hD).2 (by omega)
        have h3gt : (L - i - O + (W - O) - 1) / (W - O) < 3 :=
          (Nat.div_lt_iff_lt_mul hD).2 (by omega)
        omega
    · have hfim : ¬ (min (i + W) L < L) := by omega
      rw [if_neg hfim, if_neg h]
      simp

lemma chunkSpans_of_le {L W O : Nat} (hL : 1 ≤ L) (hLW : L ≤ W) :
    chunkSpans L W O = [(0, L)] := by
  obtain ⟨n, rfl⟩ : ∃ n, L = n + 1 := ⟨L - 1, by omega⟩
  rw [chunkSpans, spansAux]
  have h0 : (0:Nat) < n + 1 := by omega
  rw [if_pos h0]
  have hfim : ¬ (min (0 + W) (n + 1) < n + 1) := by omega
  rw [if_neg hfim]
  have hmin : min (0 + W) (n + 1) = n + 1 := by omega
  rw [hmin]

lemma blocosAux_eq_map (p : Pagina) (W O : Nat) :
    ∀ fuel i, blocosAux p W O fuel i =
      (spansAux p.texto.length W O fuel i).map
        (fun se => ⟨p.pagina, p.arquivo, (p.texto.drop se.1).take (se.2 - se.1)⟩) := by
  intro fuel
  induction fuel with
  | zero => intro i; simp [blocosAux, spansAux]
  | succ n ih =>
    intro i
    rw [blocosAux, spansAux]
    by_cases hi : i < p.texto.length
    · rw [if_pos hi, if_pos hi]
      by_cases hfim : min (i + W) p.texto.length < p.texto.length
      · rw [if_pos hfim, if_pos hfim]
        simp [ih]
      · rw [if_neg hfim, if_neg hfim]
        simp
    · rw [if_neg hi, if_neg hi]
      simp

lemma dividir_single (p : Pagina) (W O : Nat) :
    dividir_em_blocos_paginas [p] W O =
      (spansAux p.texto.length W O (p.texto.length + 1) 0).map
        (fun se => ⟨p.pagina, p.arquivo, (p.texto.drop se.1).take (se.2 - se.1)⟩) := by
  simp [dividir_em_blocos_paginas, blocosAux_eq_map]

/-- Claim C1, amended to require a nonempty page text.  For a page text of length
`L ≥ 1` and window/overlap `(W, O)` with `O < W`: the union of the chunk
windows covers `[0, L)`, every window has length at most `W`, the number of
chunks is `⌈(L-O)/(W-O)⌉` when `L > W` and `1` otherwise, a page text no
longer than `W` yields the single window `(0, L)` (the whole text), and the
chunks of `dividir_em_blocos_paginas` on such a page are exactly the texts
of these windows.  (The unamended claim fails at `L = 0`: an empty page
text yields no chunk at all, see the counterexample.) -/
theorem claim_C1_chunking (L W O : Nat) (hO : O < W) (hL : 1 ≤ L) :
    (∀ x < L, ∃ se ∈ chunkSpans L W O, se.1 ≤ x ∧ x < se.2) ∧
    (∀ se ∈ chunkSpans L W O, se.2 - se.1 ≤ W) ∧
    ((chunkSpans L W O).length =
      if W < L then (L - O + (W - O) - 1) / (W - O) else 1) ∧
    (L ≤ W → chunkSpans L W O = [(0, L)]) ∧
    (∀ p : Pagina, p.texto.length = L →
      dividir_em_blocos_paginas [p] W O =
        (chunkSpans L W O).map
          (fun se => ⟨p.pagina, p.arquivo, (p.texto.drop se.1).take (se.2 - se.1)⟩)) := by
  refine ⟨?_, ?_, ?_, chunkSpans_of_le hL, ?_⟩
  · intro x hx
    exact @spansAux_coverage L W O hO (L + 1) 0 x (by omega) (by omega) hx
  · intro se hse
    have h := @spansAux_mem L W O hO (L + 1) 0 se.1 se.2 (by omega)
      (by simpa using hse)
    omega
  · rw [chunkSpans, @spansAux_length L W O hO (L + 1) 0 (by omega) (by omega)]
    have h0 : (0 + W < L) = (W < L) := by simp
    by_cases h : W < L
    · rw [if_pos (by omega : 0 + W < L), if_pos h]
      have : L - 0 - O = L - O := by omega
      rw [this]
    · rw [if_neg (by omega : ¬ (0 + W < L)), if_neg h]
  · intro p hp
    rw [dividir_single, hp, chunkSpans]

/-- Claim C1, counterexample to the unamended claim.  With the default
parameters `W = 1500, O = 300` (so `O < W`) and an empty page text
(`L = 0 ≤ W`), the chunker yields `0` chunks, not `1`. -/
theorem claim_C1_counterexample :
    300 < 1500 ∧
      (dividir_em_blocos_paginas [⟨1, [], ['f']⟩] 1500 300).length = 0 := by
  constructor
  · decide
  · rfl

/-- Claim C8: Every chunk produced by `dividir_em_blocos_paginas` takes its
text from a single page — the text window is a contiguous substring of that
page's text — and carries exactly that page's page number and source
file. -/
theorem claim_C8_chunks_within_page (paginas : List Pagina) (W O : Nat)
    (b : Bloco) (hb : b ∈ dividir_em_blocos_paginas paginas W O) :
    ∃ p ∈ paginas, b.pagina = p.pagina ∧ b.arquivo = p.arquivo ∧
      ∃ pre post, p.texto = pre ++ b.texto ++ post := by
  rcases List.mem_flatMap.1 hb with ⟨p, hp, hbp⟩
  refine ⟨p, hp, ?_⟩
  rw [blocosAux_eq_map] at hbp
  rcases List.mem_map.1 hbp with ⟨se, _, rfl⟩
  refine ⟨rfl, rfl, p.texto.take se.1, (p.texto.drop se.1).drop (se.2 - se.1), ?_⟩
  rw [List.append_assoc, List.take_append_drop, List.take_append_drop]

/-! ## Claims about one question turn of `renderizar_chat` -/

/-- Claim C4, amended.  When the quota check denies, the turn stops with the
quota message: no increment call is made, no row is persisted, no LLM call
occurs, and the only session-state change is the user question that was
already appended to the visible history and to the active conversation
before the gate ran (plus conversation creation/renaming bookkeeping).
(The unamended claim — session state fully unchanged — is false: see the
counterexample, the question is appended before the check.) -/
theorem claim_C4_quota_denied (env : TurnEnv) (st : ChatState)
    (pergunta : List Char)
    (hq : verificar_limite_uso env.quotaResp = false) :
    (processarPergunta env st pergunta).events = [Ev.quota false] ∧
    (processarPergunta env st pergunta).outcome = .quotaDenied ∧
    Ev.increment ∉ (processarPergunta env st pergunta).events ∧
    (∀ q a, Ev.persistRow q a ∉ (processarPergunta env st pergunta).events) ∧
    (∀ ok, Ev.llmCall ok ∉ (processarPergunta env st pergunta).events) ∧
    (processarPergunta env st pergunta).historico =
      histAntes st ++ [⟨.user, pergunta⟩] ∧
    (processarPergunta env st pergunta).conversa.mensagens =
      (convAntes st).mensagens ++ [⟨.user, pergunta⟩] := by
  by_cases hn : (convAntes st).nova <;>
    simp [processarPergunta, hq, hn]

/-- Claim C4, counterexample to the unamended claim.  A turn whose quota
check denies still changes session state: with an empty prior history, the
history afterwards contains the user question. -/
theorem claim_C4_counterexample :
    verificar_limite_uso (Except.ok (.asBool false)) = false ∧
    (processarPergunta ⟨.ok (.asBool false), [], .ok [], true⟩
        ⟨[], some ⟨['t'], [], false⟩⟩ ['q']).historico ≠ ([] : List Msg) := by
  decide

/-- Claim C5: When retrieval returns no chunks (and the quota gate allowed
the turn), no LLM call is made and nothing is persisted: the events stop at
the retrieval, the turn ends in the `noMatch` state, and the user receives
the fixed "no relevant information" notice as the assistant message. -/
theorem claim_C5_no_chunks_no_llm (env : TurnEnv) (st : ChatState)
    (pergunta : List Char)
    (hq : verificar_limite_uso env.quotaResp = true)
    (hr : buscar_blocos_relevantes pergunta env.blocos 5 = []) :
    (processarPergunta env st pergunta).events =
      [Ev.quota true, Ev.increment, Ev.retrieve 0] ∧
    (processarPergunta env st pergunta).outcome = .noMatch ∧
    (∀ ok, Ev.llmCall ok ∉ (processarPergunta env st pergunta).events) ∧
    (∀ q a, Ev.persistRow q a ∉ (processarPergunta env st pergunta).events) ∧
    (processarPergunta env st pergunta).historico =
      histAntes st ++ [⟨.user, pergunta⟩, ⟨.assistant, aviso_sem_informacao⟩] ∧
    (processarPergunta env st pergunta).conversa.mensagens =
      (convAntes st).mensagens ++
        [⟨.user, pergunta⟩, ⟨.assistant, aviso_sem_informacao⟩] := by
  by_cases hn : (convAntes st).nova <;>
    simp [processarPergunta, hq, hr, hn]

/-- Claim C7: When the LLM call raises (and the turn got past quota and
retrieval), the turn ends in the `genFailed` state: no row is persisted —
not even attempted — and no assistant message is appended to the visible
history or to the conversation; only the user question remains. -/
theorem claim_C7_generation_failure (env : TurnEnv) (st : ChatState)
    (pergunta : List Char)
    (hq : verificar_limite_uso env.quotaResp = true)
    (hr : buscar_blocos_relevantes pergunta env.blocos 5 ≠ [])
    (hl : env.llm = .error ()) :
    (processarPergunta env st pergunta).outcome = .genFailed ∧
    (∀ q a, Ev.persistRow q a ∉ (processarPergunta env st pergunta).events) ∧
    Ev.persistFail ∉ (processarPergunta env st pergunta).events ∧
    (processarPergunta env st pergunta).historico =
      histAntes st ++ [⟨.user, pergunta⟩] ∧
    (processarPergunta env st pergunta).conversa.mensagens =
      (convAntes st).mensagens ++ [⟨.user, pergunta⟩] := by
  have hgen : gerar_resposta env.llm
      (buscar_blocos_relevantes pergunta env.blocos 5) = .error () := by
    rw [hl, gerar_resposta]
  by_cases hn : (convAntes st).nova <;>
    simp [processarPergunta, hq, hr, hn, hgen]

/-- Claim C10: Every turn that passes the quota check records exactly one
increment call, immediately after the gate and before retrieval; whatever
happens afterwards (no match, generation failure, save failure or success),
no further increment and no further retrieval occurs.  The counter
therefore counts allowed attempts, not answered questions. -/
theorem claim_C10_increment_once_before_retrieval (env : TurnEnv)
    (st : ChatState) (pergunta : List Char)
    (hq : verificar_limite_uso env.quotaResp = true) :
    ∃ rest,
      (processarPergunta env st pergunta).events =
        Ev.quota true :: Ev.increment ::
          Ev.retrieve (buscar_blocos_relevantes pergunta env.blocos 5).length ::
            rest ∧
      Ev.increment ∉ rest ∧ (∀ n, Ev.retrieve n ∉ rest) := by
  by_cases hb : buscar_blocos_relevantes pergunta env.blocos 5 = []
  · refine ⟨[], ?_, by simp, by simp⟩
    simp [processarPergunta, hq, hb]
  · cases hgen : gerar_resposta env.llm
      (buscar_blocos_relevantes pergunta env.blocos 5) with
    | error e =>
      refine ⟨[Ev.llmCall false], ?_, by simp, by simp⟩
      simp [processarPergunta, hq, hb, hgen]
    | ok resposta =>
      by_cases hs : env.saveOk
      · refine ⟨[Ev.llmCall true, Ev.persistRow pergunta resposta], ?_, by simp, by simp⟩
        simp [processarPergunta, hq, hb, hgen, hs]
      · refine ⟨[Ev.llmCall true, Ev.persistFail], ?_, by simp, by simp⟩
        simp [processarPergunta, hq, hb, hgen, hs]

/-! ## Concrete witnesses -/

/-- Witness for the amended C1, at `L = 6, W = 5, O = 2` (chunk count) and
`L = 3, W = 5, O = 2` (short text gives the whole-text window). -/
theorem claim_C1_chunking_witness :
    ((chunkSpans 6 5 2).length =
      if 5 < 6 then (6 - 2 + (5 - 2) - 1) / (5 - 2) else 1) ∧
    chunkSpans 3 5 2 = [(0, 3)] :=
  ⟨(claim_C1_chunking 6 5 2 (by decide) (by decide)).2.2.1,
   (claim_C1_chunking 3 5 2 (by decide) (by decide)).2.2.2.1 (by decide)⟩

/-- Witness for C2 at a concrete question and chunk list. -/
theorem claim_C2_retriever_witness :
    0 < scoreBloco (palavrasDaPergunta ("motor".toList))
        ⟨2, [], "motor ok".toList⟩ ∧
    (buscar_blocos_relevantes ("motor".toList)
      [⟨1, [], "sem nada".toList⟩, ⟨2, [], "motor ok".toList⟩,
       ⟨3, [], "motor motor".toList⟩] 2).length ≤ 2 :=
  ⟨(claim_C2_retriever ("motor".toList)
      [⟨1, [], "sem nada".toList⟩, ⟨2, [], "motor ok".toList⟩,
       ⟨3, [], "motor motor".toList⟩] 2).1
      ⟨2, [], "motor ok".toList⟩ (by decide),
   (claim_C2_retriever ("motor".toList)
      [⟨1, [], "sem nada".toList⟩, ⟨2, [], "motor ok".toList⟩,
       ⟨3, [], "motor motor".toList⟩] 2).2.1⟩

/-- Witness for the amended C4 at a concrete denied turn. -/
theorem claim_C4_quota_denied_witness :
    (processarPergunta ⟨.ok (.asBool false), [], .ok [], true⟩
        ⟨[], some ⟨['t'], [], false⟩⟩ ['q']).events = [Ev.quota false] :=
  (claim_C4_quota_denied ⟨.ok (.asBool false), [], .ok [], true⟩
    ⟨[], some ⟨['t'], [], false⟩⟩ ['q'] (by decide)).1

/-- Witness for C5 at a concrete turn with no loaded chunks. -/
theorem claim_C5_no_chunks_no_llm_witness :
    (processarPergunta ⟨.ok (.asBool true), [], .ok [], true⟩
        ⟨[], some ⟨['t'], [], false⟩⟩ ['q']).events =
      [Ev.quota true, Ev.increment, Ev.retrieve 0] :=
  (claim_C5_no_chunks_no_llm ⟨.ok (.asBool true), [], .ok [], true⟩
    ⟨[], some ⟨['t'], [], false⟩⟩ ['q'] (by decide) (by decide)).1

/-- Witness for C6: two rows 2000 seconds apart land in two
conversations. -/
theorem claim_C6_carregar_conversas_witness :
    (carregar_conversas [⟨['q'], ['a'], 0⟩, ⟨['r'], ['b'], 2000⟩]).length = 2 :=
  (claim_C6_carregar_conversas []).2.2.2.1
    ⟨['q'], ['a'], 0⟩ ⟨['r'], ['b'], 2000⟩ (by decide)

/-- Witness for C7 at a concrete turn whose LLM call raises. -/
theorem claim_C7_generation_failure_witness :
    (processarPergunta
        ⟨.ok (.asBool true), [⟨1, [], "motor".toList⟩], .error (), true⟩
        ⟨[], some ⟨['t'], [], false⟩⟩ ("motor".toList)).outcome = .genFailed :=
  (claim_C7_generation_failure
    ⟨.ok (.asBool true), [⟨1, [], "motor".toList⟩], .error (), true⟩
    ⟨[], some ⟨['t'], [], false⟩⟩ ("motor".toList)
    (by decide) (by decide) rfl).1

/-- Witness for C8 at a concrete one-page split. -/
theorem claim_C8_chunks_within_page_witness :
    ∃ p ∈ ([⟨1, ['a', 'b', 'c', 'd'], ['f']⟩] : List Pagina),
      (⟨1, ['f'], ['a', 'b', 'c']⟩ : Bloco).pagina = p.pagina ∧
      (⟨1, ['f'], ['a', 'b', 'c']⟩ : Bloco).arquivo = p.arquivo ∧
      ∃ pre post,
        p.texto = pre ++ (⟨1, ['f'], ['a', 'b', 'c']⟩ : Bloco).texto ++ post :=
  claim_C8_chunks_within_page [⟨1, ['a', 'b', 'c', 'd'], ['f']⟩] 3 1
    ⟨1, ['f'], ['a', 'b', 'c']⟩ (by decide)

/-- Witness for C10 at a concrete allowed turn. -/
theorem claim_C10_increment_once_witness :
    ∃ rest,
      (processarPergunta ⟨.ok (.asBool true), [], .ok [], true⟩
          ⟨[], some ⟨['t'], [], false⟩⟩ ['q']).events =
        Ev.quota true :: Ev.increment ::
          Ev.retrieve (buscar_blocos_relevantes ['q'] [] 5).length :: rest ∧
        Ev.increment ∉ rest ∧ (∀ n, Ev.retrieve n ∉ rest) :=
  claim_C10_increment_once_before_retrieval
    ⟨.ok (.asBool true), [], .ok [], true⟩
    ⟨[], some ⟨['t'], [], false⟩⟩ ['q'] (by decide)
